import Mathlib

/-!
Shallow embedding of the LeadReplies discovery-and-qualification core:
the F5Bot Reddit scraper (`server/f5bot_reddit_scraper.py`), the DeepSeek
batch qualification analyzer (`server/deepseek_analyzer.py`) and the
threshold-gated persistence step of the background orchestration loop
(`server/background_service.py`, `server/database.py`).

Python strings are modelled as Lean `String` (operating on the `List Char`
code-point data, matching Python's code-point semantics for `len`, slicing
and `in`); Python floats in the relevance heuristic are modelled as `ℚ`;
external HTTP/LLM calls and `json.loads` are modelled as function
parameters supplying their results.
-/

/-- Python `str.lower()` (per-character lowering). -/
def str_lower (s : String) : String := String.mk (s.data.map Char.toLower)

def trim_chars (l : List Char) : List Char :=
  ((l.dropWhile Char.isWhitespace).reverse.dropWhile Char.isWhitespace).reverse

/-- Python `str.strip()`. -/
def str_trim (s : String) : String := String.mk (trim_chars s.data)

/-- Whether `needle` occurs at the head of `hay`. -/
def listStartsWith : List Char → List Char → Bool
  | [], _ => true
  | _ :: _, [] => false
  | a :: as, b :: bs => a == b && listStartsWith as bs

/-- Python `needle in hay` for strings: contiguous substring containment. -/
def containsSub (hay needle : List Char) : Bool :=
  (List.range (hay.length + 1)).any (fun i => listStartsWith needle (hay.drop i))

/-- Python `str.find(c)`: index of the first occurrence of `c`, as an `Option`
instead of `-1`. -/
def char_find (s : String) (c : Char) : Option Nat :=
  s.data.findIdx? (fun ch => ch == c)

/-- Python `str.rfind(c)`: index of the last occurrence of `c`. -/
def char_rfind (s : String) (c : Char) : Option Nat :=
  (s.data.reverse.findIdx? (fun ch => ch == c)).map (fun i => s.data.length - 1 - i)

/-- Python slicing `s[a:b]` (for `0 ≤ a`, `0 ≤ b`). -/
def str_slice (s : String) (a b : Nat) : String :=
  String.mk ((s.data.drop a).take (b - a))

/-- Python `re` word character (ASCII approximation of `\w`). -/
def isWordChar (c : Char) : Bool := c.isAlphanum || c == '_'

/-- Word-ness of the character at index `i`, out-of-range counting as
non-word. -/
def wordAt (l : List Char) (i : Nat) : Bool := isWordChar (l.getD i ' ')

/-- Python `re` `\b`: a word boundary sits at position `i` when the
characters on the two sides of the position differ in word-ness (string
ends count as non-word). -/
def boundaryAt (l : List Char) (i : Nat) : Bool :=
  (if i = 0 then false else wordAt l (i - 1)) != wordAt l i

/-- Python `re.search(r'\b' + re.escape(needle) + r'\b', hay) is not None`:
some occurrence of the literal `needle` is flanked by word boundaries. -/
def wordBoundarySearch (needle hay : String) : Bool :=
  (List.range (hay.data.length + 1)).any (fun i =>
    listStartsWith needle.data (hay.data.drop i) &&
    boundaryAt hay.data i &&
    boundaryAt hay.data (i + needle.data.length))

/-! ## Scraper data model (`f5bot_reddit_scraper.py`) -/

/-- The `RedditPost` dataclass. `created_utc` (a Python float timestamp) is
modelled as `Int`; no claim depends on it. -/
structure RedditPost where
  id : String
  title : String
  content : String
  author : String
  subreddit : String
  url : String
  score : Int
  num_comments : Int
  created_utc : Int
  permalink : String
  matched_keywords : List String
  deriving DecidableEq, Repr

/-- `self.max_keywords_per_batch` set in `F5BotRedditScraper.__init__`. -/
def max_keywords_per_batch : Nat := 12

/-- `self.max_query_length` set in `F5BotRedditScraper.__init__`. -/
def max_query_length : Nat := 1800

/-- `len(f'"{keyword}" OR ')`: the serialized query contribution of one
keyword in `_split_keywords_into_batches`. -/
def keyword_query_length (kw : String) : Nat :=
  ("\"" ++ kw ++ "\" OR ").length

/-- Serialized query length of a whole batch: the sum the greedy loop
accumulates in `current_query_length`. -/
def batch_query_length (batch : List String) : Nat :=
  (batch.map keyword_query_length).sum

/-- The greedy accumulation loop of `_split_keywords_into_batches`: state is
(remaining keywords, closed batches, current batch, current query length). -/
def split_keywords_loop : List String → List (List String) → List String → Nat →
    List (List String)
  | [], batches, current_batch, _ =>
      if current_batch.isEmpty then batches else batches ++ [current_batch]
  | kw :: rest, batches, current_batch, current_query_length =>
      let keyword_length := keyword_query_length kw
      let would_exceed_count := max_keywords_per_batch ≤ current_batch.length
      let would_exceed_length :=
        max_query_length < current_query_length + keyword_length
      if (would_exceed_count || would_exceed_length) && !current_batch.isEmpty then
        split_keywords_loop rest (batches ++ [current_batch]) [kw] keyword_length
      else
        split_keywords_loop rest batches (current_batch ++ [kw])
          (current_query_length + keyword_length)

/-- `F5BotRedditScraper._split_keywords_into_batches`: short lists are
returned whole; longer lists go through the greedy loop. -/
def split_keywords_into_batches (keywords : List String) : List (List String) :=
  if keywords.length ≤ max_keywords_per_batch then [keywords]
  else split_keywords_loop keywords [] [] 0

/-- The `full_text` built in `_search_via_json_api`: title and body are
lowered separately and joined with a space. -/
def json_full_text (title selftext : String) : String :=
  str_lower title ++ " " ++ str_lower selftext

/-- The `full_text` built in `_parse_rss_response`: title and body joined
with a space, then lowered. -/
def rss_full_text (title content : String) : String :=
  str_lower (title ++ " " ++ content)

/-- The matched-keyword loop shared by `_search_via_json_api` and
`_parse_rss_response`: a keyword matches when its lowering is a substring
of the (already lowered) full text. -/
def compute_matched_keywords (keywords : List String) (full_text : String) :
    List String :=
  keywords.filter (fun kw => containsSub full_text.data (str_lower kw).data)

/-- One item of the JSON API response (`post_data` after the `.get(...)`
defaults of `_search_via_json_api`). -/
structure JsonPostData where
  id : String
  title : String
  selftext : String
  author : String
  subreddit : String
  url : String
  score : Int
  num_comments : Int
  created_utc : Int
  permalink : String
  deriving DecidableEq, Repr

/-- The per-item loop of `_search_via_json_api` (lines 192–221): a post is
emitted only when its matched-keyword list is non-empty. -/
def process_json_items (keywords : List String) : List JsonPostData → List RedditPost
  | [] => []
  | d :: rest =>
      let matched_keywords :=
        compute_matched_keywords keywords (json_full_text d.title d.selftext)
      if matched_keywords.isEmpty then process_json_items keywords rest
      else
        { id := d.id, title := d.title, content := d.selftext, author := d.author,
          subreddit := d.subreddit, url := d.url, score := d.score,
          num_comments := d.num_comments, created_utc := d.created_utc,
          permalink := "https://reddit.com" ++ d.permalink,
          matched_keywords := matched_keywords } :: process_json_items keywords rest

/-- Index of the first occurrence of `needle` as a contiguous sublist of
`hay`. -/
def find_sub_idx (hay needle : List Char) : Option Nat :=
  (List.range (hay.length + 1)).find? (fun i => listStartsWith needle (hay.drop i))

/-- Python `hay.split(needle)[1].split(sep)[0]` for a needle that contains
`sep`: everything after the first occurrence of `needle` (callers guard on
containment, so the `none` case is unreachable there). -/
def split_after (hay needle : List Char) : List Char :=
  match find_sub_idx hay needle with
  | none => []
  | some i => hay.drop (i + needle.length)

/-- The subreddit extraction of `_parse_rss_response` (lines 331–337):
`url.split("/r/")[1].split("/")[0]` when `"/r/" in url`, else `""`. Since
the separator `"/r/"` contains `'/'`, taking up to the first `'/'` after
the first occurrence is exactly the Python expression, and the guarded
split cannot raise. -/
def subreddit_of_url (url : String) : String :=
  if containsSub url.data "/r/".data then
    String.mk ((split_after url.data "/r/".data).takeWhile (fun c => c ≠ '/'))
  else ""

/-- The post-id extraction of `_parse_rss_response` (lines 339–345):
`url.split("/comments/")[1].split("/")[0]` when `"/comments/" in url`,
else `""` (the `except` fallback is unreachable: the guarded split cannot
raise). -/
def post_id_of_url (url : String) : String :=
  if containsSub url.data "/comments/".data then
    String.mk ((split_after url.data "/comments/".data).takeWhile (fun c => c ≠ '/'))
  else ""

/-- One feed entry of `_parse_rss_response` after the external XML steps:
`title` and `content` are the entry's texts after `html.unescape` and the
HTML-tag-stripping `re.sub` (both upstream of the matching logic), and
`url` is the extracted link. -/
structure RssEntry where
  title : String
  content : String
  url : String
  deriving DecidableEq, Repr

/-- The per-entry loop of `_parse_rss_response` (lines 297–361): a post is
emitted only when its matched-keyword list is non-empty; author is fixed
to `"unknown"`, score and comment count to 0, `created_utc` to the current
time (passed as `now`), and subreddit/post id are read off the url. -/
def parse_rss_entries (keywords : List String) (now : Int) :
    List RssEntry → List RedditPost
  | [] => []
  | e :: rest =>
      let matched_keywords :=
        compute_matched_keywords keywords (rss_full_text e.title e.content)
      if matched_keywords.isEmpty then parse_rss_entries keywords now rest
      else
        { id := post_id_of_url e.url, title := e.title, content := e.content,
          author := "unknown", subreddit := subreddit_of_url e.url,
          url := e.url, score := 0, num_comments := 0, created_utc := now,
          permalink := e.url, matched_keywords := matched_keywords }
          :: parse_rss_entries keywords now rest

/-- `F5BotRedditScraper._deduplicate_posts`: skip a post whose non-empty id
was seen before, or whose non-empty url was seen before; kept posts
register both their id and url. -/
def deduplicate_posts_loop (seen_ids seen_urls : List String) :
    List RedditPost → List RedditPost
  | [] => []
  | post :: rest =>
      if post.id ≠ "" ∧ post.id ∈ seen_ids then
        deduplicate_posts_loop seen_ids seen_urls rest
      else if post.url ≠ "" ∧ post.url ∈ seen_urls then
        deduplicate_posts_loop seen_ids seen_urls rest
      else
        post :: deduplicate_posts_loop
          (if post.id ≠ "" then post.id :: seen_ids else seen_ids)
          (if post.url ≠ "" then post.url :: seen_urls else seen_urls) rest

def deduplicate_posts (posts : List RedditPost) : List RedditPost :=
  deduplicate_posts_loop [] [] posts

/-- The per-keyword additions of `calculate_relevance` inside
`_filter_by_keywords_relevance` (floats modelled as `ℚ`). -/
def keyword_relevance (kw : String) (title_lower content_lower : String) : ℚ :=
  (if containsSub title_lower.data (str_lower kw).data then
    (10 : ℚ) + (if str_lower kw = str_trim title_lower then 5 else 0)
  else 0)
  + (if containsSub content_lower.data (str_lower kw).data then (5 : ℚ) else 0)
  + (if wordBoundarySearch (str_lower kw) title_lower then (3 : ℚ) else 0)
  + (if wordBoundarySearch (str_lower kw) content_lower then (2 : ℚ) else 0)

/-- `calculate_relevance(post)`: keyword additions, breadth bonus, and
bounded engagement contributions. -/
def calculate_relevance (post : RedditPost) : ℚ :=
  let title_lower := str_lower post.title
  let content_lower := str_lower post.content
  (post.matched_keywords.foldl
      (fun score kw => score + keyword_relevance kw title_lower content_lower) 0)
    + (post.matched_keywords.length : ℚ) * 2
    + min ((post.score : ℚ) / 10) 5
    + min ((post.num_comments : ℚ) / 5) 3

/-- The method loop of `search_reddit_for_keywords` (lines 120–145): both
search strategies are run in order over the batch and non-empty results are
appended to `batch_posts`. The two HTTP-backed strategies are parameters. -/
def run_search_methods (json_search rss_search : List String → List RedditPost)
    (keyword_batch : List String) : List RedditPost :=
  [json_search, rss_search].foldl
    (fun batch_posts search_method =>
      let method_posts := search_method keyword_batch
      if method_posts.isEmpty then batch_posts else batch_posts ++ method_posts)
    []

/-! ## Qualification analyzer (`deepseek_analyzer.py`) -/

/-- The lead dict fields `batch_analyze_leads_for_business` and the
orchestration save step read: `id`, `title`, `content` and the
`matched_keywords` the keyword filter wrote into the dict. -/
structure LeadDict where
  id : String
  title : String
  content : String
  matched_keywords : List String
  deriving DecidableEq, Repr

/-- One element of the parsed JSON response array; `probability` and
`analysis` are `Option`s because the code reads them with
`analysis.get('probability', 0)` and `analysis.get('analysis', ...)`. -/
structure BatchAnalysisItem where
  probability : Option Int
  analysis : Option String
  deriving DecidableEq, Repr

/-- The analyzed-lead dict produced by `batch_analyze_leads_for_business`:
the spread input lead plus `probability` and `analysis` (the constant
diagnostic fields `ai_matched_keywords`/`decision_maker_likelihood`/
`urgency_level`, never read downstream, are elided; `matched_keywords` is
the value the output dict carries for that key). -/
structure AnalyzedLead where
  lead : LeadDict
  probability : Int
  analysis : String
  matched_keywords : List String
  deriving DecidableEq, Repr

/-- Lines 276–280 of `batch_analyze_leads_for_business`:
`json_start = response.find('[')`, `json_end = response.rfind(']') + 1`,
branch guarded by `json_start != -1 and json_end != -1`. Since
`rfind + 1 ≥ 0`, the guard reduces to `'['` being present; with no `']'`
the slice end is `0` and the slice is empty. -/
def extract_json_array (response : String) : Option String :=
  match char_find response '[' with
  | none => none
  | some json_start =>
      let json_end := (char_rfind response ']').elim 0 (fun i => i + 1)
      some (str_slice response json_start json_end)

/-- The position-based matching loop (lines 284–306): lead `i` takes
element `i` of the parsed array, and leads beyond the array's length take
the `'Analysis not found'` default with probability 0. -/
def match_analyses : List LeadDict → List BatchAnalysisItem → List AnalyzedLead
  | [], _ => []
  | lead :: leads, analysis :: analyses =>
      { lead := lead,
        probability := analysis.probability.getD 0,
        analysis := analysis.analysis.getD "No analysis",
        matched_keywords := lead.matched_keywords }
        :: match_analyses leads analyses
  | lead :: leads, [] =>
      { lead := lead, probability := 0, analysis := "Analysis not found",
        matched_keywords := lead.matched_keywords }
        :: match_analyses leads []

/-- The `'Batch analysis failed'` fallback dict (lines 314–322). -/
def batch_failed_lead (lead : LeadDict) : AnalyzedLead :=
  { lead := lead, probability := 0, analysis := "Batch analysis failed",
    matched_keywords := lead.matched_keywords }

/-- `DeepSeekAnalyzer.batch_analyze_leads_for_business`. The LLM call is
modelled by the `response` parameter (`none` when `_make_request` returns
`None`), and `json.loads` on the extracted slice by the `json_loads_array`
parameter (`none` for a `JSONDecodeError`, which the code catches). -/
def batch_analyze_leads_for_business (api_key : Option String)
    (json_loads_array : String → Option (List BatchAnalysisItem))
    (response : Option String)
    (leads : List LeadDict) (business_keywords : List String) :
    List AnalyzedLead :=
  if leads.isEmpty then []
  else
    match api_key with
    | none =>
        leads.map (fun lead =>
          { lead := lead, probability := 50,
            analysis := "AI analysis unavailable - API key not configured",
            matched_keywords := business_keywords.take 3 })
    | some _ =>
        match response with
        | none => leads.map batch_failed_lead
        | some r =>
            match extract_json_array r with
            | none => leads.map batch_failed_lead
            | some json_str =>
                match json_loads_array json_str with
                | none => leads.map batch_failed_lead
                | some analyses => match_analyses leads analyses

/-! ## Orchestration save step (`background_service.py`, `database.py`) -/

/-- The hard-coded qualification threshold of
`LeadScrapingService._process_all_businesses` (line 301: `ai_score >= 60`). -/
def qualification_threshold : Int := 60

/-- The arguments of one `Database.add_business_lead` insert into
`business_leads` (the `business_id` is fixed by the enclosing tenant loop). -/
structure BusinessLeadInsert where
  global_lead_id : String
  ai_score : Int
  ai_reasoning : String
  matched_keywords : List String
  deriving DecidableEq, Repr

/-- The insert produced for one analyzed lead (lines 296–308). -/
def business_lead_insert (al : AnalyzedLead) : BusinessLeadInsert :=
  { global_lead_id := al.lead.id, ai_score := al.probability,
    ai_reasoning := al.analysis, matched_keywords := al.matched_keywords }

/-- The save loop over one analyzed batch (lines 295–312): `add_business_lead`
is invoked exactly for the leads whose probability reaches the threshold;
the rest are discarded. -/
def save_qualifying_leads : List AnalyzedLead → List BusinessLeadInsert
  | [] => []
  | al :: rest =>
      if qualification_threshold ≤ al.probability then
        business_lead_insert al :: save_qualifying_leads rest
      else save_qualifying_leads rest

/-! ## Definitions written from the spec's words (for refinement claims) -/

/-- Splitting a string into its whitespace-separated words (Python
`str.split()` restricted to single spaces, enough for the concrete
counterexample below). -/
def split_words (s : String) : List String :=
  ((s.data.splitOn ' ').filter (fun w => !w.isEmpty)).map String.mk

/-- Modelled from the spec: the keyword-match predicate the spec describes
for `matchedKeywords` — "case-insensitive substring containment (whole
keyword, or all words of a multi-word keyword present) against
title+body". The code under `src/` implements only the first disjunct;
this definition exists to be compared against `compute_matched_keywords`. -/
def spec_keyword_match (kw : String) (full_text : String) : Bool :=
  containsSub full_text.data (str_lower kw).data ||
  (1 < (split_words kw).length &&
    (split_words kw).all (fun w => containsSub full_text.data (str_lower w).data))

/-! ## Helper lemmas -/

theorem split_keywords_loop_flatten :
    ∀ (ks : List String) (batches : List (List String)) (current : List String)
      (clen : Nat),
      (split_keywords_loop ks batches current clen).flatten
        = batches.flatten ++ current ++ ks
  | [], batches, current, _ => by
      by_cases h : current.isEmpty
      · simp [split_keywords_loop, h, List.isEmpty_iff.mp h]
      · simp [split_keywords_loop, h]
  | kw :: rest, batches, current, clen => by
      simp only [split_keywords_loop]
      split
      · rw [split_keywords_loop_flatten]
        simp
      · rw [split_keywords_loop_flatten]
        simp

theorem batch_query_length_append (b : List String) (kw : String) :
    batch_query_length (b ++ [kw]) = batch_query_length b + keyword_query_length kw := by
  simp [batch_query_length]

theorem split_keywords_loop_bounds :
    ∀ (ks : List String) (batches : List (List String)) (current : List String)
      (clen : Nat),
      clen = batch_query_length current →
      current.length ≤ max_keywords_per_batch →
      (2 ≤ current.length → batch_query_length current ≤ max_query_length) →
      (∀ b ∈ batches, b.length ≤ max_keywords_per_batch ∧
          (2 ≤ b.length → batch_query_length b ≤ max_query_length)) →
      ∀ b ∈ split_keywords_loop ks batches current clen,
        b.length ≤ max_keywords_per_batch ∧
          (2 ≤ b.length → batch_query_length b ≤ max_query_length)
  | [], batches, current, clen => by
      intro _ hlen hq hbatches b hb
      by_cases h : current.isEmpty
      · simp only [split_keywords_loop, h, if_pos] at hb
        exact hbatches b hb
      · simp only [split_keywords_loop, h, Bool.false_eq_true, if_neg,
          not_false_iff] at hb
        rcases List.mem_append.mp hb with h1 | h2
        · exact hbatches b h1
        · rcases List.mem_singleton.mp h2 with rfl
          exact ⟨hlen, hq⟩
  | kw :: rest, batches, current, clen => by
      intro hclen hlen hq hbatches b hb
      simp only [split_keywords_loop] at hb
      cases hemp : current.isEmpty with
      | true =>
          have hcur : current = [] := List.isEmpty_iff.mp hemp
          rw [hemp] at hb
          simp only [Bool.not_true, Bool.and_false, Bool.false_eq_true, if_neg,
            not_false_iff] at hb
          refine split_keywords_loop_bounds rest batches (current ++ [kw])
            (clen + keyword_query_length kw) ?_ ?_ ?_ hbatches b hb
          · rw [batch_query_length_append, hclen]
          · simp [hcur, max_keywords_per_batch]
          · intro h2
            rw [hcur] at h2
            simp at h2
      | false =>
          rw [hemp] at hb
          simp only [Bool.not_false, Bool.and_true] at hb
          by_cases hcond :
              (max_keywords_per_batch ≤ current.length ∨
                max_query_length < clen + keyword_query_length kw)
          · rw [if_pos (by simpa using hcond)] at hb
            refine split_keywords_loop_bounds rest (batches ++ [current]) [kw]
              (keyword_query_length kw) ?_ ?_ ?_ ?_ b hb
            · simp [batch_query_length]
            · simp [max_keywords_per_batch]
            · intro h2
              simp at h2
            · intro b' hb'
              rcases List.mem_append.mp hb' with h1 | h2
              · exact hbatches b' h1
              · rcases List.mem_singleton.mp h2 with rfl
                exact ⟨hlen, hq⟩
          · rw [if_neg (by simpa using hcond)] at hb
            push_neg at hcond
            refine split_keywords_loop_bounds rest batches (current ++ [kw])
              (clen + keyword_query_length kw) ?_ ?_ ?_ hbatches b hb
            · rw [batch_query_length_append, hclen]
            · have h1 := hcond.1
              simp only [List.length_append, List.length_singleton]
              omega
            · intro _
              have h2 := hcond.2
              rw [batch_query_length_append, ← hclen]
              omega

/-- A 1000-character keyword, used to exhibit the length-limit gap of the
short-list shortcut in `_split_keywords_into_batches`. -/
def long_keyword : String := String.mk (List.replicate 1000 'x')

/-- C4: for every input keyword list, the batches returned by
`_split_keywords_into_batches` form an ordered partition of the input: the
concatenation of the output batches, in order, equals the input list
exactly. -/
theorem split_keywords_into_batches_flatten (keywords : List String) :
    (split_keywords_into_batches keywords).flatten = keywords := by
  unfold split_keywords_into_batches
  split
  · simp
  · simpa using split_keywords_loop_flatten keywords [] [] 0

set_option maxRecDepth 8000

/-- C5 counterexample: on the two-keyword input `[long_keyword, long_keyword]`
the function returns a single batch of two keywords whose serialized query
length (2012) exceeds `max_query_length = 1800`, although neither keyword's
serialized form alone exceeds the limit — the claimed length guarantee
fails because lists of at most 12 keywords bypass the greedy length check
entirely. -/
theorem split_keywords_length_limit_violated :
    split_keywords_into_batches [long_keyword, long_keyword]
        = [[long_keyword, long_keyword]] ∧
      max_query_length < batch_query_length [long_keyword, long_keyword] ∧
      keyword_query_length long_keyword ≤ max_query_length := by
  refine ⟨rfl, by decide, by decide⟩

/-- C5 amended: no batch returned by `_split_keywords_into_batches` contains
more than 12 keywords; and provided the input has more than 12 keywords
(so that the greedy loop runs at all), every batch with at least two
keywords has serialized query length at most 1800 (a batch may exceed the
length limit only as a singleton). Inputs of at most 12 keywords are
returned as a single batch with no length check. -/
theorem split_keywords_into_batches_bounds (keywords : List String)
    (b : List String) (hb : b ∈ split_keywords_into_batches keywords) :
    b.length ≤ max_keywords_per_batch ∧
      (max_keywords_per_batch < keywords.length → 2 ≤ b.length →
        batch_query_length b ≤ max_query_length) := by
  unfold split_keywords_into_batches at hb
  by_cases h : keywords.length ≤ max_keywords_per_batch
  · rw [if_pos h] at hb
    rcases List.mem_singleton.mp hb with rfl
    exact ⟨h, fun hgt _ => absurd h (by omega)⟩
  · rw [if_neg h] at hb
    have hall := split_keywords_loop_bounds keywords [] [] 0
      (by simp [batch_query_length]) (by simp) (by simp) (by simp) b hb
    exact ⟨hall.1, fun _ => hall.2⟩

/-- C5 amended, witness: a concrete instantiation at the singleton input
`["a"]`, whose unique batch satisfies both bounds. -/
theorem split_keywords_into_batches_bounds_witness :
    (["a"] : List String).length ≤ max_keywords_per_batch ∧
      (max_keywords_per_batch < (["a"] : List String).length →
        2 ≤ (["a"] : List String).length →
        batch_query_length ["a"] ≤ max_query_length) :=
  split_keywords_into_batches_bounds ["a"] ["a"] (by decide)

theorem deduplicate_posts_loop_sublist :
    ∀ (posts : List RedditPost) (seen_ids seen_urls : List String),
      (deduplicate_posts_loop seen_ids seen_urls posts).Sublist posts
  | [], _, _ => List.Sublist.refl []
  | post :: rest, seen_ids, seen_urls => by
      unfold deduplicate_posts_loop
      split
      · exact (deduplicate_posts_loop_sublist rest seen_ids seen_urls).cons post
      · split
        · exact (deduplicate_posts_loop_sublist rest seen_ids seen_urls).cons post
        · exact (deduplicate_posts_loop_sublist rest _ _).cons₂ post

theorem mem_if_cons_of_mem (c : Prop) [Decidable c] (x y : String)
    (seen : List String) (hy : y ∈ seen) : y ∈ (if c then x :: seen else seen) := by
  split
  · exact List.mem_cons_of_mem _ hy
  · exact hy

theorem deduplicate_posts_loop_not_seen :
    ∀ (posts : List RedditPost) (seen_ids seen_urls : List String)
      (q : RedditPost), q ∈ deduplicate_posts_loop seen_ids seen_urls posts →
      (q.id ≠ "" → q.id ∉ seen_ids) ∧ (q.url ≠ "" → q.url ∉ seen_urls)
  | [], _, _, q => by simp [deduplicate_posts_loop]
  | post :: rest, seen_ids, seen_urls, q => by
      unfold deduplicate_posts_loop
      split
      · exact deduplicate_posts_loop_not_seen rest seen_ids seen_urls q
      · split
        · exact deduplicate_posts_loop_not_seen rest seen_ids seen_urls q
        · intro hq
          rcases List.mem_cons.mp hq with rfl | htail
          · constructor
            · intro hid hmem
              rename_i hnot1 _
              exact hnot1 ⟨hid, hmem⟩
            · intro hurl hmem
              rename_i hnot2
              exact hnot2 ⟨hurl, hmem⟩
          · have ih := deduplicate_posts_loop_not_seen rest _ _ q htail
            constructor
            · intro hid hmem
              exact ih.1 hid (mem_if_cons_of_mem _ post.id q.id seen_ids hmem)
            · intro hurl hmem
              exact ih.2 hurl (mem_if_cons_of_mem _ post.url q.url seen_urls hmem)

/-- Two posts have distinct identities in the sense the deduplicator
enforces: their non-empty ids differ and their non-empty urls differ. -/
def distinct_identity (p q : RedditPost) : Prop :=
  (p.id ≠ "" → q.id ≠ "" → p.id ≠ q.id) ∧ (p.url ≠ "" → q.url ≠ "" → p.url ≠ q.url)

theorem deduplicate_posts_loop_pairwise :
    ∀ (posts : List RedditPost) (seen_ids seen_urls : List String),
      (deduplicate_posts_loop seen_ids seen_urls posts).Pairwise distinct_identity
  | [], _, _ => List.Pairwise.nil
  | post :: rest, seen_ids, seen_urls => by
      unfold deduplicate_posts_loop
      split
      · exact deduplicate_posts_loop_pairwise rest seen_ids seen_urls
      · split
        · exact deduplicate_posts_loop_pairwise rest seen_ids seen_urls
        · refine List.Pairwise.cons ?_ (deduplicate_posts_loop_pairwise rest _ _)
          intro q hq
          have hns := deduplicate_posts_loop_not_seen rest _ _ q hq
          constructor
          · intro hpid hqid heq
            apply hns.1 hqid
            rw [← heq]
            simp [hpid]
          · intro hpurl hqurl heq
            apply hns.2 hqurl
            rw [← heq]
            simp [hpurl]

theorem deduplicate_posts_loop_removed_covered :
    ∀ (posts : List RedditPost) (seen_ids seen_urls : List String)
      (p : RedditPost), p ∈ posts →
      p ∉ deduplicate_posts_loop seen_ids seen_urls posts →
      (p.id ≠ "" ∧ (p.id ∈ seen_ids ∨
        ∃ q ∈ deduplicate_posts_loop seen_ids seen_urls posts, q.id = p.id)) ∨
      (p.url ≠ "" ∧ (p.url ∈ seen_urls ∨
        ∃ q ∈ deduplicate_posts_loop seen_ids seen_urls posts, q.url = p.url))
  | [], _, _, p => by simp
  | post :: rest, seen_ids, seen_urls, p => by
      intro hp hnp
      simp only [deduplicate_posts_loop] at hnp ⊢
      by_cases h1 : post.id ≠ "" ∧ post.id ∈ seen_ids
      · rw [if_pos h1] at hnp ⊢
        rcases List.mem_cons.mp hp with rfl | htail
        · exact Or.inl ⟨h1.1, Or.inl h1.2⟩
        · exact deduplicate_posts_loop_removed_covered rest seen_ids seen_urls p
            htail hnp
      · rw [if_neg h1] at hnp ⊢
        by_cases h2 : post.url ≠ "" ∧ post.url ∈ seen_urls
        · rw [if_pos h2] at hnp ⊢
          rcases List.mem_cons.mp hp with rfl | htail
          · exact Or.inr ⟨h2.1, Or.inl h2.2⟩
          · exact deduplicate_posts_loop_removed_covered rest seen_ids seen_urls p
              htail hnp
        · rw [if_neg h2] at hnp ⊢
          have hpne : p ≠ post := fun heq => hnp (heq ▸ List.mem_cons_self _ _)
          have htail : p ∈ rest := by
            rcases List.mem_cons.mp hp with rfl | h
            · exact absurd rfl hpne
            · exact h
          have hnp' : p ∉ deduplicate_posts_loop
              (if post.id ≠ "" then post.id :: seen_ids else seen_ids)
              (if post.url ≠ "" then post.url :: seen_urls else seen_urls) rest :=
            fun hmem => hnp (List.mem_cons_of_mem _ hmem)
          rcases deduplicate_posts_loop_removed_covered rest _ _ p htail hnp'
            with ⟨hid, hseen | ⟨q, hq, hqid⟩⟩ | ⟨hurl, hseen | ⟨q, hq, hqurl⟩⟩
          · by_cases hpostid : post.id = ""
            · rw [if_neg (by simp [hpostid])] at hseen
              exact Or.inl ⟨hid, Or.inl hseen⟩
            · rw [if_pos hpostid] at hseen
              rcases List.mem_cons.mp hseen with heq | hseen2
              · exact Or.inl ⟨hid, Or.inr
                  ⟨post, List.mem_cons_self _ _, heq.symm⟩⟩
              · exact Or.inl ⟨hid, Or.inl hseen2⟩
          · exact Or.inl ⟨hid, Or.inr ⟨q, List.mem_cons_of_mem _ hq, hqid⟩⟩
          · by_cases hposturl : post.url = ""
            · rw [if_neg (by simp [hposturl])] at hseen
              exact Or.inr ⟨hurl, Or.inl hseen⟩
            · rw [if_pos hposturl] at hseen
              rcases List.mem_cons.mp hseen with heq | hseen2
              · exact Or.inr ⟨hurl, Or.inr
                  ⟨post, List.mem_cons_self _ _, heq.symm⟩⟩
              · exact Or.inr ⟨hurl, Or.inl hseen2⟩
          · exact Or.inr ⟨hurl, Or.inr ⟨q, List.mem_cons_of_mem _ hq, hqurl⟩⟩

theorem deduplicate_posts_loop_keeps_first :
    ∀ (l1 : List RedditPost) (p : RedditPost) (l2 : List RedditPost)
      (seen_ids seen_urls : List String),
      (p.id ≠ "" → p.id ∉ seen_ids) → (p.url ≠ "" → p.url ∉ seen_urls) →
      (∀ q ∈ l1, ¬(p.id ≠ "" ∧ q.id = p.id) ∧ ¬(p.url ≠ "" ∧ q.url = p.url)) →
      p ∈ deduplicate_posts_loop seen_ids seen_urls (l1 ++ p :: l2)
  | [], p, l2, seen_ids, seen_urls => by
      intro hid hurl _
      simp only [List.nil_append]
      unfold deduplicate_posts_loop
      rw [if_neg (fun h => hid h.1 h.2), if_neg (fun h => hurl h.1 h.2)]
      exact List.mem_cons_self _ _
  | q :: l1, p, l2, seen_ids, seen_urls => by
      intro hid hurl hall
      have hq := hall q (List.mem_cons_self q l1)
      have hall' : ∀ r ∈ l1,
          ¬(p.id ≠ "" ∧ r.id = p.id) ∧ ¬(p.url ≠ "" ∧ r.url = p.url) :=
        fun r hr => hall r (List.mem_cons_of_mem _ hr)
      simp only [List.cons_append]
      unfold deduplicate_posts_loop
      split
      · exact deduplicate_posts_loop_keeps_first l1 p l2 seen_ids seen_urls
          hid hurl hall'
      · split
        · exact deduplicate_posts_loop_keeps_first l1 p l2 seen_ids seen_urls
            hid hurl hall'
        · refine List.mem_cons_of_mem _
            (deduplicate_posts_loop_keeps_first l1 p l2 _ _ ?_ ?_ hall')
          · intro h1 hmem
            by_cases hqid : q.id = ""
            · rw [if_neg (by simp [hqid])] at hmem
              exact hid h1 hmem
            · rw [if_pos hqid] at hmem
              rcases List.mem_cons.mp hmem with heq | hmem'
              · exact hq.1 ⟨h1, heq.symm⟩
              · exact hid h1 hmem'
          · intro h1 hmem
            by_cases hqurl : q.url = ""
            · rw [if_neg (by simp [hqurl])] at hmem
              exact hurl h1 hmem
            · rw [if_pos hqurl] at hmem
              rcases List.mem_cons.mp hmem with heq | hmem'
              · exact hq.2 ⟨h1, heq.symm⟩
              · exact hurl h1 hmem'

/-- The first of two posts sharing a url but carrying distinct non-empty
ids. -/
def url_shared_post_a : RedditPost :=
  { id := "a", title := "", content := "", author := "", subreddit := "",
    url := "u", score := 0, num_comments := 0, created_utc := 0,
    permalink := "", matched_keywords := [] }

/-- The second of two posts sharing a url but carrying distinct non-empty
ids. -/
def url_shared_post_b : RedditPost :=
  { id := "b", title := "", content := "", author := "", subreddit := "",
    url := "u", score := 0, num_comments := 0, created_utc := 0,
    permalink := "", matched_keywords := [] }

/-- C6 counterexample: `_deduplicate_posts` drops the second of two posts
with distinct non-empty ids as soon as they share a url, while the claim
says the url is used as the identity only when the sourceId is absent and
that two posts with distinct non-empty ids are both kept. -/
theorem deduplicate_posts_drops_second_id_on_shared_url :
    url_shared_post_a.id ≠ "" ∧ url_shared_post_b.id ≠ "" ∧
      url_shared_post_a.id ≠ url_shared_post_b.id ∧
      deduplicate_posts [url_shared_post_a, url_shared_post_b]
        = [url_shared_post_a] ∧
      url_shared_post_b ∉ deduplicate_posts [url_shared_post_a, url_shared_post_b] := by
  decide

/-- C6 amended: `_deduplicate_posts` removes a post exactly when its
non-empty id was already seen OR its non-empty url was already seen — the
url is not a fallback used only when the id is absent, but an independent
second identity. Concretely: (i) the output is a subsequence of the input
(order preserved); (ii) no two output posts share a non-empty id, and none
share a non-empty url; (iii) a post entirely absent from the output was
removed only because some kept post shares its non-empty id or its
non-empty url; (iv) first occurrence wins: a post preceded by no input
post sharing a non-empty identity with it is kept. -/
theorem deduplicate_posts_sublist_and_distinct (posts : List RedditPost) :
    (deduplicate_posts posts).Sublist posts ∧
      (deduplicate_posts posts).Pairwise distinct_identity ∧
      (∀ p ∈ posts, p ∉ deduplicate_posts posts →
        ∃ q ∈ deduplicate_posts posts,
          (p.id ≠ "" ∧ q.id = p.id) ∨ (p.url ≠ "" ∧ q.url = p.url)) ∧
      (∀ (l1 l2 : List RedditPost) (p : RedditPost), posts = l1 ++ p :: l2 →
        (∀ q ∈ l1, ¬(p.id ≠ "" ∧ q.id = p.id) ∧ ¬(p.url ≠ "" ∧ q.url = p.url)) →
        p ∈ deduplicate_posts posts) := by
  refine ⟨deduplicate_posts_loop_sublist posts [] [],
    deduplicate_posts_loop_pairwise posts [] [], ?_, ?_⟩
  · intro p hp hnp
    rcases deduplicate_posts_loop_removed_covered posts [] [] p hp hnp
      with ⟨hid, hseen | ⟨q, hq, hqid⟩⟩ | ⟨hurl, hseen | ⟨q, hq, hqurl⟩⟩
    · exact absurd hseen (List.not_mem_nil _)
    · exact ⟨q, hq, Or.inl ⟨hid, hqid⟩⟩
    · exact absurd hseen (List.not_mem_nil _)
    · exact ⟨q, hq, Or.inr ⟨hurl, hqurl⟩⟩
  · intro l1 l2 p heq hall
    rw [heq]
    exact deduplicate_posts_loop_keeps_first l1 p l2 [] []
      (fun _ => List.not_mem_nil _) (fun _ => List.not_mem_nil _) hall

/-- C6 amended, witness: in the two-post counterexample list, the first
post (preceded by nothing) is kept. -/
theorem deduplicate_posts_sublist_and_distinct_witness :
    url_shared_post_a ∈ deduplicate_posts [url_shared_post_a, url_shared_post_b] :=
  (deduplicate_posts_sublist_and_distinct
      [url_shared_post_a, url_shared_post_b]).2.2.2
    [] [url_shared_post_b] url_shared_post_a rfl (by simp)

/-- C7 counterexample: for the multi-word keyword `"foo bar"` with title
`"bar"` and body `"foo"`, every word of the keyword appears in title+body
(so the claimed disjunct says it must be matched), yet the code's
substring-only test matches nothing — there is no all-words clause in
`_search_via_json_api`/`_parse_rss_response`. -/
theorem multi_word_keyword_not_matched :
    spec_keyword_match "foo bar" (json_full_text "bar" "foo") = true ∧
      compute_matched_keywords ["foo bar"] (json_full_text "bar" "foo") = [] ∧
      compute_matched_keywords ["foo bar"] (rss_full_text "bar" "foo") = [] := by
  decide

/-- C7 amended: a keyword is included in `matchedKeywords` if and only if the
whole keyword appears case-insensitively as a contiguous substring of
title+body (multi-word keywords receive no all-words treatment), in both
the JSON-API and the RSS variant; and every post emitted by either fetch
loop — the JSON-API item loop and the RSS entry loop — has a non-empty
`matched_keywords` list. -/
theorem matched_keywords_substring_only :
    (∀ (keywords : List String) (title selftext kw : String),
      kw ∈ compute_matched_keywords keywords (json_full_text title selftext) ↔
        kw ∈ keywords ∧
          containsSub (json_full_text title selftext).data (str_lower kw).data
            = true) ∧
    (∀ (keywords : List String) (title content kw : String),
      kw ∈ compute_matched_keywords keywords (rss_full_text title content) ↔
        kw ∈ keywords ∧
          containsSub (rss_full_text title content).data (str_lower kw).data
            = true) ∧
    (∀ (keywords : List String) (items : List JsonPostData) (p : RedditPost),
      p ∈ process_json_items keywords items → p.matched_keywords ≠ []) ∧
    (∀ (keywords : List String) (now : Int) (entries : List RssEntry)
      (p : RedditPost),
      p ∈ parse_rss_entries keywords now entries → p.matched_keywords ≠ []) := by
  refine ⟨fun keywords title selftext kw => List.mem_filter,
    fun keywords title content kw => List.mem_filter, ?_, ?_⟩
  · intro keywords items
    induction items with
    | nil => simp [process_json_items]
    | cons d rest ih =>
        intro p hp
        simp only [process_json_items] at hp
        split at hp
        · exact ih p hp
        · rcases List.mem_cons.mp hp with rfl | htail
          · rename_i hne
            simpa [List.isEmpty_iff] using hne
          · exact ih p htail
  · intro keywords now entries
    induction entries with
    | nil => simp [parse_rss_entries]
    | cons e rest ih =>
        intro p hp
        simp only [parse_rss_entries] at hp
        split at hp
        · exact ih p hp
        · rcases List.mem_cons.mp hp with rfl | htail
          · rename_i hne
            simpa [List.isEmpty_iff] using hne
          · exact ih p htail

/-- A concrete JSON item whose title contains the searched keyword. -/
def sample_json_item : JsonPostData :=
  { id := "p1", title := "need a CRM", selftext := "", author := "u1",
    subreddit := "s", url := "http://x", score := 3, num_comments := 1,
    created_utc := 0, permalink := "/r/s/comments/p1/" }

/-- The post `process_json_items` produces from `sample_json_item`. -/
def sample_emitted_post : RedditPost :=
  { id := "p1", title := "need a CRM", content := "", author := "u1",
    subreddit := "s", url := "http://x", score := 3, num_comments := 1,
    created_utc := 0, permalink := "https://reddit.com/r/s/comments/p1/",
    matched_keywords := ["crm"] }

/-- A concrete RSS feed entry whose title contains the searched keyword. -/
def sample_rss_entry : RssEntry :=
  { title := "need a CRM", content := "",
    url := "https://reddit.com/r/s/comments/p2/x" }

/-- The post `parse_rss_entries` produces from `sample_rss_entry`. -/
def sample_rss_post : RedditPost :=
  { id := "p2", title := "need a CRM", content := "", author := "unknown",
    subreddit := "s", url := "https://reddit.com/r/s/comments/p2/x",
    score := 0, num_comments := 0, created_utc := 0,
    permalink := "https://reddit.com/r/s/comments/p2/x",
    matched_keywords := ["crm"] }

/-- C7 amended, witness: the posts produced from `sample_json_item` and from
`sample_rss_entry` for the keyword list `["crm"]` both carry non-empty
matched-keyword lists. -/
theorem matched_keywords_substring_only_witness :
    sample_emitted_post.matched_keywords ≠ [] ∧
      sample_rss_post.matched_keywords ≠ [] :=
  ⟨matched_keywords_substring_only.2.2.1 ["crm"] [sample_json_item]
      sample_emitted_post (by decide),
    matched_keywords_substring_only.2.2.2 ["crm"] 0 [sample_rss_entry]
      sample_rss_post (by decide)⟩

/-- The post returned by the structured JSON strategy in the C8
counterexample. -/
def json_strategy_post : RedditPost :=
  { id := "j1", title := "t", content := "", author := "", subreddit := "",
    url := "uj", score := 0, num_comments := 0, created_utc := 0,
    permalink := "", matched_keywords := ["kw"] }

/-- The post returned by the RSS strategy in the C8 counterexample. -/
def rss_strategy_post : RedditPost :=
  { id := "r1", title := "t", content := "", author := "", subreddit := "",
    url := "ur", score := 0, num_comments := 0, created_utc := 0,
    permalink := "", matched_keywords := ["kw"] }

/-- C8 counterexample: with a structured strategy returning the non-empty
result `[json_strategy_post]`, the per-batch method loop still invokes the
RSS strategy and appends its result — the feed-document strategy is not
skipped when the structured one succeeds. -/
theorem rss_strategy_runs_despite_json_results :
    (fun (_ : List String) => [json_strategy_post]) ["kw"] ≠ [] ∧
      run_search_methods (fun _ => [json_strategy_post])
          (fun _ => [rss_strategy_post]) ["kw"]
        = [json_strategy_post, rss_strategy_post] ∧
      rss_strategy_post ∈ run_search_methods (fun _ => [json_strategy_post])
          (fun _ => [rss_strategy_post]) ["kw"] := by
  decide

/-- C8 amended: for every keyword batch, the two source strategies are both
invoked unconditionally, in fixed order (structured JSON API first, RSS
second), and the batch's candidate list is always the concatenation of the
two strategies' results — the RSS strategy is not conditioned on the JSON
strategy failing. -/
theorem run_search_methods_concat
    (json_search rss_search : List String → List RedditPost)
    (keyword_batch : List String) :
    run_search_methods json_search rss_search keyword_batch
      = json_search keyword_batch ++ rss_search keyword_batch := by
  unfold run_search_methods
  simp only [List.foldl_cons, List.foldl_nil]
  by_cases h1 : (json_search keyword_batch).isEmpty <;>
    by_cases h2 : (rss_search keyword_batch).isEmpty <;>
      simp [h1, h2, List.isEmpty_iff.mp, *]

theorem foldl_add_eq_sum (f : String → ℚ) :
    ∀ (l : List String) (s : ℚ),
      l.foldl (fun acc kw => acc + f kw) s = s + (l.map f).sum
  | [], s => by simp
  | kw :: rest, s => by
      simp only [List.foldl_cons, List.map_cons, List.sum_cons]
      rw [foldl_add_eq_sum f rest (s + f kw)]
      ring

theorem keyword_relevance_nonneg (kw title_lower content_lower : String) :
    0 ≤ keyword_relevance kw title_lower content_lower := by
  unfold keyword_relevance
  split_ifs <;> norm_num

/-- C9: the relevance score of `calculate_relevance` is monotonic in matched
keywords: inserting one more keyword anywhere into `matched_keywords`,
with title, body, engagement score and comment count unchanged, never
decreases the score (each per-keyword addition is non-negative and the
breadth bonus grows by 2). -/
theorem calculate_relevance_monotone
    (id title content author subreddit url : String)
    (score num_comments created_utc : Int) (permalink : String)
    (kws1 kws2 : List String) (kw : String) :
    calculate_relevance
        { id := id, title := title, content := content, author := author,
          subreddit := subreddit, url := url, score := score,
          num_comments := num_comments, created_utc := created_utc,
          permalink := permalink, matched_keywords := kws1 ++ kws2 }
      ≤ calculate_relevance
        { id := id, title := title, content := content, author := author,
          subreddit := subreddit, url := url, score := score,
          num_comments := num_comments, created_utc := created_utc,
          permalink := permalink, matched_keywords := kws1 ++ kw :: kws2 } := by
  unfold calculate_relevance
  simp only [foldl_add_eq_sum, List.map_append, List.sum_append, List.map_cons,
    List.sum_cons, List.length_append, List.length_cons]
  have h := keyword_relevance_nonneg kw (str_lower title) (str_lower content)
  push_cast
  nlinarith [h]

/-- Placeholder lead used as the `getD` fallback in statements. -/
def lead0 : LeadDict := { id := "", title := "", content := "", matched_keywords := [] }

/-- Placeholder parsed-array item used as the `getD` fallback. -/
def item0 : BatchAnalysisItem := { probability := none, analysis := none }

/-- Placeholder analyzed lead used as the `getD` fallback. -/
def al0 : AnalyzedLead :=
  { lead := lead0, probability := 0, analysis := "", matched_keywords := [] }

theorem match_analyses_length :
    ∀ (leads : List LeadDict) (analyses : List BatchAnalysisItem),
      (match_analyses leads analyses).length = leads.length
  | [], _ => by cases ‹List BatchAnalysisItem› <;> simp [match_analyses]
  | l :: ls, [] => by
      simp [match_analyses, match_analyses_length ls []]
  | l :: ls, a :: as => by
      simp [match_analyses, match_analyses_length ls as]

theorem match_analyses_getD :
    ∀ (leads : List LeadDict) (analyses : List BatchAnalysisItem) (i : Nat),
      i < leads.length →
      (match_analyses leads analyses).getD i al0 =
        if i < analyses.length then
          { lead := leads.getD i lead0,
            probability := ((analyses.getD i item0).probability).getD 0,
            analysis := ((analyses.getD i item0).analysis).getD "No analysis",
            matched_keywords := (leads.getD i lead0).matched_keywords }
        else
          { lead := leads.getD i lead0, probability := 0,
            analysis := "Analysis not found",
            matched_keywords := (leads.getD i lead0).matched_keywords }
  | [], _, i => by intro h; simp at h
  | l :: ls, a :: as, 0 => by intro _; simp [match_analyses]
  | l :: ls, a :: as, i + 1 => by
      intro h
      simp only [match_analyses, List.getD_cons_succ, List.length_cons]
      rw [match_analyses_getD ls as i (by simpa using h)]
      simp [Nat.succ_lt_succ_iff]
  | l :: ls, [], 0 => by intro _; simp [match_analyses]
  | l :: ls, [], i + 1 => by
      intro h
      simp only [match_analyses, List.getD_cons_succ]
      rw [match_analyses_getD ls [] i (by simpa using h)]
      simp

theorem batch_analyze_success_eq (api_key : String)
    (json_loads_array : String → Option (List BatchAnalysisItem))
    (response json_str : String) (analyses : List BatchAnalysisItem)
    (leads : List LeadDict) (business_keywords : List String)
    (hx : extract_json_array response = some json_str)
    (hj : json_loads_array json_str = some analyses) :
    batch_analyze_leads_for_business (some api_key) json_loads_array
        (some response) leads business_keywords = match_analyses leads analyses := by
  cases leads with
  | nil => simp [batch_analyze_leads_for_business, match_analyses]
  | cons l ls => simp [batch_analyze_leads_for_business, hx, hj]

/-- C2: for every batch of leads and every well-formed parsed response array,
`batch_analyze_leads_for_business` associates results strictly
positionally — the output has one entry per input lead, the i-th entry
carries the i-th parsed element's probability and analysis, and every lead
at an index beyond the parsed array's length receives the default result
with probability 0 and the `'Analysis not found'` marker (the function is
total, so no exception reaches the caller). -/
theorem batch_analyze_positional (api_key : String)
    (json_loads_array : String → Option (List BatchAnalysisItem))
    (response json_str : String) (analyses : List BatchAnalysisItem)
    (leads : List LeadDict) (business_keywords : List String)
    (hx : extract_json_array response = some json_str)
    (hj : json_loads_array json_str = some analyses) :
    (batch_analyze_leads_for_business (some api_key) json_loads_array
        (some response) leads business_keywords).length = leads.length ∧
    ∀ i, i < leads.length →
      (batch_analyze_leads_for_business (some api_key) json_loads_array
          (some response) leads business_keywords).getD i al0 =
        if i < analyses.length then
          { lead := leads.getD i lead0,
            probability := ((analyses.getD i item0).probability).getD 0,
            analysis := ((analyses.getD i item0).analysis).getD "No analysis",
            matched_keywords := (leads.getD i lead0).matched_keywords }
        else
          { lead := leads.getD i lead0, probability := 0,
            analysis := "Analysis not found",
            matched_keywords := (leads.getD i lead0).matched_keywords } := by
  rw [batch_analyze_success_eq api_key json_loads_array response json_str
    analyses leads business_keywords hx hj]
  exact ⟨match_analyses_length leads analyses,
    fun i hi => match_analyses_getD leads analyses i hi⟩

/-- A first concrete input lead. -/
def sample_lead_1 : LeadDict :=
  { id := "g1", title := "t1", content := "c1", matched_keywords := ["k"] }

/-- A second concrete input lead. -/
def sample_lead_2 : LeadDict :=
  { id := "g2", title := "t2", content := "c2", matched_keywords := ["k"] }

/-- A concrete decoder returning a single-element parsed array. -/
def sample_decoder : String → Option (List BatchAnalysisItem) :=
  fun _ => some [{ probability := some 85, analysis := some "Seeking solutions" }]

/-- C2 witness: two leads against a one-element parsed array — the
hypotheses hold by computation and the output still has one entry per
lead. -/
theorem batch_analyze_positional_witness :
    extract_json_array "[x]" = some "[x]" ∧
      (batch_analyze_leads_for_business (some "key") sample_decoder (some "[x]")
          [sample_lead_1, sample_lead_2] []).length = 2 :=
  ⟨rfl, (batch_analyze_positional "key" sample_decoder "[x]" "[x]"
    [{ probability := some 85, analysis := some "Seeking solutions" }]
    [sample_lead_1, sample_lead_2] [] rfl rfl).1⟩

/-- C3: for every non-empty batch, when the LLM response cannot be parsed
into a JSON array — no response at all, no `[` in the response, or a JSON
decode error on the extracted slice — `batch_analyze_leads_for_business`
returns one result per input lead with probability 0 and the fixed
`'Batch analysis failed'` marker, and (being total) raises nothing. -/
theorem batch_analyze_parse_failure (api_key : String)
    (json_loads_array : String → Option (List BatchAnalysisItem))
    (response : Option String) (leads : List LeadDict)
    (business_keywords : List String) (hne : leads ≠ [])
    (hfail : response = none ∨ ∃ r, response = some r ∧
      (extract_json_array r = none ∨
        ∃ s, extract_json_array r = some s ∧ json_loads_array s = none)) :
    batch_analyze_leads_for_business (some api_key) json_loads_array response
        leads business_keywords = leads.map batch_failed_lead ∧
    ∀ al ∈ leads.map batch_failed_lead,
      al.probability = 0 ∧ al.analysis = "Batch analysis failed" := by
  constructor
  · cases leads with
    | nil => exact absurd rfl hne
    | cons l ls =>
        rcases hfail with rfl | ⟨r, rfl, hex | ⟨s, hex, hdec⟩⟩
        · simp [batch_analyze_leads_for_business]
        · simp [batch_analyze_leads_for_business, hex]
        · simp [batch_analyze_leads_for_business, hex, hdec]
  · intro al hal
    rcases List.mem_map.mp hal with ⟨l, _, rfl⟩
    exact ⟨rfl, rfl⟩

/-- C3 witness: a one-lead batch with no LLM response at all gets the
batch-failure fallback. -/
theorem batch_analyze_parse_failure_witness :
    batch_analyze_leads_for_business (some "key") (fun _ => none) none
        [sample_lead_1] [] = [sample_lead_1].map batch_failed_lead :=
  (batch_analyze_parse_failure "key" (fun _ => none) none [sample_lead_1] []
    (by decide) (Or.inl rfl)).1

/-- C1: within the orchestration save step run for every tenant and every
analyzed lead of a cycle, an `add_business_lead` insert (a TenantLead row)
is produced for a lead if and only if its AI-assigned probability reaches
the qualification threshold of 60; leads scoring below the threshold are
discarded and contribute no insert. -/
theorem add_business_lead_iff_threshold (analyzed_leads : List AnalyzedLead) :
    (∀ al ∈ analyzed_leads, qualification_threshold ≤ al.probability →
        business_lead_insert al ∈ save_qualifying_leads analyzed_leads) ∧
    (∀ ins ∈ save_qualifying_leads analyzed_leads,
        ∃ al, al ∈ analyzed_leads ∧ qualification_threshold ≤ al.probability ∧
          ins = business_lead_insert al) := by
  induction analyzed_leads with
  | nil => exact ⟨by simp, by simp [save_qualifying_leads]⟩
  | cons a rest ih =>
      constructor
      · intro al hal hth
        rcases List.mem_cons.mp hal with rfl | htail
        · simp only [save_qualifying_leads, if_pos hth]
          exact List.mem_cons_self _ _
        · have hmem := ih.1 al htail hth
          simp only [save_qualifying_leads]
          split
          · exact List.mem_cons_of_mem _ hmem
          · exact hmem
      · intro ins hins
        simp only [save_qualifying_leads] at hins
        split at hins
        · rcases List.mem_cons.mp hins with rfl | htail
          · exact ⟨a, List.mem_cons_self _ _, by assumption, rfl⟩
          · rcases ih.2 ins htail with ⟨al, hmem, hth, heq⟩
            exact ⟨al, List.mem_cons_of_mem _ hmem, hth, heq⟩
        · rcases ih.2 ins hins with ⟨al, hmem, hth, heq⟩
          exact ⟨al, List.mem_cons_of_mem _ hmem, hth, heq⟩

/-- A concrete analyzed lead scoring 85, above the threshold. -/
def qualified_analyzed_lead : AnalyzedLead :=
  { lead := sample_lead_1, probability := 85, analysis := "ok",
    matched_keywords := ["k"] }

/-- C1 witness: a lead scoring 85 yields its insert in the save loop's
output. -/
theorem add_business_lead_iff_threshold_witness :
    business_lead_insert qualified_analyzed_lead
      ∈ save_qualifying_leads [qualified_analyzed_lead] :=
  (add_business_lead_iff_threshold [qualified_analyzed_lead]).1
    qualified_analyzed_lead (by decide) (by decide)

/-- C10: with no API key configured, `batch_analyze_leads_for_business`
returns, for every lead and independently of any would-be LLM response
(no network call is modelled: the result does not depend on the
`response` argument), the default result with probability exactly 50 and
the fixed `'AI analysis unavailable'` message; and since 50 is below the
persistence threshold of 60, the save step persists no TenantLead from
such a batch. -/
theorem no_api_key_fifty_and_nothing_persisted
    (json_loads_array : String → Option (List BatchAnalysisItem))
    (response : Option String) (leads : List LeadDict)
    (business_keywords : List String) :
    batch_analyze_leads_for_business none json_loads_array response leads
        business_keywords
      = leads.map (fun lead =>
          { lead := lead, probability := 50,
            analysis := "AI analysis unavailable - API key not configured",
            matched_keywords := business_keywords.take 3 }) ∧
    save_qualifying_leads (batch_analyze_leads_for_business none
        json_loads_array response leads business_keywords) = [] := by
  have h1 : batch_analyze_leads_for_business none json_loads_array response
      leads business_keywords
      = leads.map (fun lead =>
          { lead := lead, probability := 50,
            analysis := "AI analysis unavailable - API key not configured",
            matched_keywords := business_keywords.take 3 }) := by
    cases leads with
    | nil => simp [batch_analyze_leads_for_business]
    | cons l ls => simp [batch_analyze_leads_for_business]
  refine ⟨h1, ?_⟩
  rw [h1]
  clear h1
  induction leads with
  | nil => simp [save_qualifying_leads]
  | cons l ls ih =>
      simp only [List.map_cons, save_qualifying_leads]
      rw [if_neg (by norm_num [qualification_threshold])]
      exact ih
